import Mathlib

/-!
Verification of the SubSort scan engine (`subsort/core/http_client.py`,
`subsort/core/scanner.py`, `subsort/cli.py`, `subsort/utils/helpers.py`).

The Python code is shallowly embedded: result dictionaries become
association lists over a `Value` type (with Python's "last write wins"
lookup), network nondeterminism becomes explicit oracle functions
(one `AttemptOutcome` per request attempt, one `ModuleOutcome` per
module invocation), and side-effecting loops become structural
recursions that additionally return the trace of observable actions
(attempts performed, sleeps performed, URLs probed, module invocations).
-/

namespace Subsort

/-- A Python value as stored in the result dictionaries of the scanner:
strings, ints (all nonnegative in this code), rationals (for times and
delays), booleans, and string-to-string maps (response headers). -/
inductive Value where
  | str (s : String)
  | int (n : Nat)
  | rat (q : ℚ)
  | bool (b : Bool)
  | strMap (m : List (String × String))
deriving DecidableEq, Repr

/-- A Python dict with string keys, embedded as an association list.
Later entries shadow earlier ones, which models both insertion and
`dict.update` (append the new entries; lookup takes the last match). -/
abbrev Dict : Type := List (String × Value)

/-- Python `d[k]` / `d.get(k)`: the value of the last entry with key `k`. -/
def dlookup (d : Dict) (k : String) : Option Value :=
  d.foldl (fun acc kv => if kv.1 = k then some kv.2 else acc) none

/-- Python `k in d`. -/
def hasKey (d : Dict) (k : String) : Bool :=
  (dlookup d k).isSome

/-- Python `d.get(k, default)`. -/
def dgetD (d : Dict) (k : String) (v : Value) : Value :=
  (dlookup d k).getD v

/-- Python truthiness of a value (nonempty string, nonzero number,
`True`, nonempty dict). -/
def valueTruthy : Value → Bool
  | .str s => !s.isEmpty
  | .int n => n != 0
  | .rat q => q != 0
  | .bool b => b
  | .strMap m => !m.isEmpty

/-- The scan-wide configuration dictionary built in `cli.py` `main`
(lines 267-276) and consumed by `AsyncHttpClient.__init__` and
`SubdomainScanner`.  Numeric fields keep the CLI's `int`/`float` types
(`threads`, `timeout`, `retries` are nonnegative ints in every run that
passes CLI validation; `delay` is a float, modelled as `ℚ`). -/
structure ScanConfig where
  threads : Nat
  timeout : Nat
  retries : Nat
  delay : ℚ
  userAgent : String
  followRedirects : Bool
  ignoreSsl : Bool
  verbose : Bool
deriving DecidableEq, Repr

/-- An `aiohttp` response as observed by `make_request`'s success path:
final URL, status, reason phrase, headers, and the raw body bytes
returned by `response.read()`. -/
structure Response where
  url : String
  status : Nat
  reason : String
  headers : List (String × String)
  body : List Nat
deriving DecidableEq, Repr

/-- The outcome of one attempt of the `session.request(...)` block in
`AsyncHttpClient.make_request` (http_client.py lines 151-213): either a
response is obtained and read, or one of the three except-clauses fires
(`asyncio.TimeoutError`, `aiohttp.ClientError`, any other `Exception`). -/
inductive AttemptOutcome where
  | success (resp : Response)
  | timeoutFault
  | clientFault (msg : String)
  | otherFault (msg : String)
deriving DecidableEq, Repr

/-- Environment of one `make_request` call: the nondeterministic network
outcome of each attempt (numbered from 0), the elapsed time
`time.time() - start_time` observed when attempt `n` finishes, and the
best-effort text decoding `bytes.decode(errors=ignore)` of a body. -/
structure ReqEnv where
  attemptOutcome : Nat → AttemptOutcome
  elapsedAt : Nat → ℚ
  decodeBytes : List Nat → String

/-- Body size cap from http_client.py line 164: 10 MiB. -/
def bodyCap : Nat := 10 * 1024 * 1024

/-- The success dictionary built by `make_request` (http_client.py lines
160-183): the body is truncated to 10 MiB, decoded best-effort, and the
dict records url, status, reason, headers, content, length, elapsed
time, and the 1-based attempt number. -/
def successResult (env : ReqEnv) (resp : Response) (attempt : Nat) : Dict :=
  let content := resp.body.take bodyCap
  [("url", .str resp.url),
   ("status_code", .int resp.status),
   ("status_message", .str resp.reason),
   ("headers", .strMap resp.headers),
   ("content", .str (env.decodeBytes content)),
   ("content_length", .int content.length),
   ("response_time", .rat (env.elapsedAt attempt)),
   ("attempt", .int (attempt + 1))]

/-- The error dictionary built by the three except-clauses of
`make_request` (http_client.py lines 188-213) on the final attempt. -/
def errorResult (env : ReqEnv) (kind : String) (url : String) (attempt : Nat) : Dict :=
  [("error", .str kind),
   ("url", .str url),
   ("attempts", .int (attempt + 1)),
   ("response_time", .rat (env.elapsedAt attempt))]

/-- The `error` value recorded for each kind of fault: `asyncio.TimeoutError`
gives the literal `timeout`, `aiohttp.ClientError e` gives
`client_error: ` followed by the message, any other exception gives its
message verbatim (http_client.py lines 189, 199, 209). -/
def faultKind : AttemptOutcome → String
  | .success _ => ""
  | .timeoutFault => "timeout"
  | .clientFault msg => "client_error: " ++ msg
  | .otherFault msg => msg

/-- The backoff sleep before retrying after failed attempt number
`attempt` (0-based): `min(0.5 * (2 ** attempt), 5)` seconds
(http_client.py line 217). -/
def backoffWait (attempt : Nat) : ℚ :=
  min ((1 / 2) * 2 ^ attempt) 5

/-- The retry loop of `make_request` (http_client.py lines 136-219),
`for attempt in range(self.retries + 1)`.  `remaining` is the number of
loop iterations left (`retries + 1 - attempt`).  Besides the returned
`Optional[Dict]` it collects the list of attempt numbers actually
executed and the list of backoff sleeps actually performed.  Reaching
`remaining = 0` is the loop falling through to `return None` (line 219). -/
def makeRequestGo (env : ReqEnv) (retries : Nat) (url : String) :
    Nat → Nat → Option Dict × List Nat × List ℚ
  | 0, _ => (none, [], [])
  | rem + 1, attempt =>
    match env.attemptOutcome attempt with
    | .success resp => (some (successResult env resp attempt), [attempt], [])
    | .timeoutFault =>
      if attempt = retries then
        (some (errorResult env (faultKind .timeoutFault) url attempt), [attempt], [])
      else
        let rest := makeRequestGo env retries url rem (attempt + 1)
        (rest.1, attempt :: rest.2.1, backoffWait attempt :: rest.2.2)
    | .clientFault msg =>
      if attempt = retries then
        (some (errorResult env (faultKind (.clientFault msg)) url attempt), [attempt], [])
      else
        let rest := makeRequestGo env retries url rem (attempt + 1)
        (rest.1, attempt :: rest.2.1, backoffWait attempt :: rest.2.2)
    | .otherFault msg =>
      if attempt = retries then
        (some (errorResult env (faultKind (.otherFault msg)) url attempt), [attempt], [])
      else
        let rest := makeRequestGo env retries url rem (attempt + 1)
        (rest.1, attempt :: rest.2.1, backoffWait attempt :: rest.2.2)

/-- `AsyncHttpClient.make_request(url, method, custom_headers)`
(http_client.py lines 131-219), as the value it returns plus the traces
of attempts and sleeps.  The method and headers do not influence the
control flow modelled here (headers only feed the request itself). -/
def make_request (env : ReqEnv) (cfg : ScanConfig) (url : String) :
    Option Dict × List Nat × List ℚ :=
  makeRequestGo env cfg.retries url (cfg.retries + 1) 0

/-! ### Basic lemmas about dictionary lookup -/

theorem dlookup_foldl (k : String) (init : Option Value) (d : List (String × Value)) :
    d.foldl (fun acc kv => if kv.1 = k then some kv.2 else acc) init =
      (dlookup d k).elim init some := by
  induction d generalizing init with
  | nil => simp [dlookup]
  | cons kv tl ih =>
    have hcons : dlookup (kv :: tl) k =
        (dlookup tl k).elim (if kv.1 = k then some kv.2 else none) some := by
      unfold dlookup
      rw [List.foldl_cons, ih]
      rfl
    rw [List.foldl_cons, ih, hcons]
    by_cases hk : kv.1 = k <;> cases hdl : dlookup tl k <;> simp [hk, hdl]

/-- One lookup step. -/
theorem dlookup_cons (kv : String × Value) (tl : Dict) (k : String) :
    dlookup (kv :: tl) k =
      (dlookup tl k).elim (if kv.1 = k then some kv.2 else none) some := by
  unfold dlookup
  rw [List.foldl_cons, dlookup_foldl]
  rfl

/-- Lookup in an updated dict: the right-hand (later) entries win. -/
theorem dlookup_append (d₁ d₂ : Dict) (k : String) :
    dlookup (d₁ ++ d₂) k = (dlookup d₂ k).elim (dlookup d₁ k) some := by
  unfold dlookup
  rw [List.foldl_append, dlookup_foldl]
  rfl

theorem hasKey_append (d₁ d₂ : Dict) (k : String) :
    hasKey (d₁ ++ d₂) k = (hasKey d₁ k || hasKey d₂ k) := by
  unfold hasKey
  rw [dlookup_append]
  cases dlookup d₂ k <;> cases h₁ : dlookup d₁ k <;> simp [h₁]

/-- If every binding of `k` in `d` carries the value `v₀`, looking `k` up
yields nothing or `v₀`. -/
theorem dlookup_const (d : Dict) (k : String) (v₀ : Value)
    (h : ∀ v : Value, (k, v) ∈ d → v = v₀) :
    dlookup d k = none ∨ dlookup d k = some v₀ := by
  induction d with
  | nil => left; rfl
  | cons kv tl ih =>
    rw [dlookup_cons]
    have htl : ∀ v : Value, (k, v) ∈ tl → v = v₀ := by
      intro v hv
      exact h v (List.mem_cons_of_mem _ hv)
    rcases ih htl with h0 | h1
    · rw [h0]
      by_cases hk : kv.1 = k
      · right
        have hv : kv.2 = v₀ := by
          apply h
          have hkv : kv = (k, kv.2) := by
            cases kv with
            | mk a b => simp_all
          rw [← hkv]
          exact List.mem_cons_self _ _
        simp [hk, hv]
      · left; simp [hk]
    · rw [h1]; right; rfl

/-! ### Key layout of the two result dictionaries -/

theorem successResult_status (env : ReqEnv) (resp : Response) (a : Nat) :
    dlookup (successResult env resp a) "status_code" = some (.int resp.status) := rfl

theorem successResult_no_error (env : ReqEnv) (resp : Response) (a : Nat) :
    dlookup (successResult env resp a) "error" = none := rfl

theorem errorResult_error (env : ReqEnv) (kind url : String) (a : Nat) :
    dlookup (errorResult env kind url a) "error" = some (.str kind) := rfl

theorem errorResult_no_status (env : ReqEnv) (kind url : String) (a : Nat) :
    dlookup (errorResult env kind url a) "status_code" = none := rfl

theorem errorResult_attempts (env : ReqEnv) (kind url : String) (a : Nat) :
    dlookup (errorResult env kind url a) "attempts" = some (.int (a + 1)) := rfl

/-- Any dictionary produced by the retry loop is a success dictionary or
an error dictionary. -/
theorem makeRequestGo_shape (env : ReqEnv) (retries : Nat) (url : String) :
    ∀ (rem attempt : Nat) (d : Dict),
      (makeRequestGo env retries url rem attempt).1 = some d →
      (∃ resp a, env.attemptOutcome a = .success resp ∧ d = successResult env resp a) ∨
      (∃ kind a, d = errorResult env kind url a) := by
  intro rem
  induction rem with
  | zero => intro attempt d h; exact absurd h (by simp [makeRequestGo])
  | succ rem ih =>
    intro attempt d h
    unfold makeRequestGo at h
    revert h
    cases hout : env.attemptOutcome attempt with
    | success resp =>
      intro h
      simp only [Option.some.injEq] at h
      exact Or.inl ⟨resp, attempt, hout, h.symm⟩
    | timeoutFault =>
      intro h
      dsimp only at h
      by_cases hlast : attempt = retries
      · rw [if_pos hlast] at h
        simp only [Option.some.injEq] at h
        exact Or.inr ⟨_, attempt, h.symm⟩
      · rw [if_neg hlast] at h
        exact ih (attempt + 1) d h
    | clientFault msg =>
      intro h
      dsimp only at h
      by_cases hlast : attempt = retries
      · rw [if_pos hlast] at h
        simp only [Option.some.injEq] at h
        exact Or.inr ⟨_, attempt, h.symm⟩
      · rw [if_neg hlast] at h
        exact ih (attempt + 1) d h
    | otherFault msg =>
      intro h
      dsimp only at h
      by_cases hlast : attempt = retries
      · rw [if_pos hlast] at h
        simp only [Option.some.injEq] at h
        exact Or.inr ⟨_, attempt, h.symm⟩
      · rw [if_neg hlast] at h
        exact ih (attempt + 1) d h

/-- C2: every non-`None` dictionary returned by `make_request` carries
exactly one of a status code (`status_code` key) or an error kind
(`error` key), never both. -/
theorem make_request_status_error_exclusive
    (env : ReqEnv) (cfg : ScanConfig) (url : String) (d : Dict)
    (h : (make_request env cfg url).1 = some d) :
    (hasKey d "status_code" = true ∧ hasKey d "error" = false) ∨
    (hasKey d "error" = true ∧ hasKey d "status_code" = false) := by
  rcases makeRequestGo_shape env cfg.retries url (cfg.retries + 1) 0 d h with
    ⟨resp, a, _, rfl⟩ | ⟨kind, a, rfl⟩
  · left
    constructor
    · show (dlookup (successResult env resp a) "status_code").isSome = true
      rw [successResult_status]; rfl
    · show (dlookup (successResult env resp a) "error").isSome = false
      rw [successResult_no_error]; rfl
  · right
    constructor
    · show (dlookup (errorResult env kind url a) "error").isSome = true
      rw [errorResult_error]; rfl
    · show (dlookup (errorResult env kind url a) "status_code").isSome = false
      rw [errorResult_no_status]; rfl

/-! ### Concrete witness environments -/

/-- A response used by concrete witnesses. -/
def respW : Response :=
  { url := "https://www.example.com/", status := 200, reason := "OK",
    headers := [("Server", "nginx")], body := [104, 105] }

/-- A network environment where every attempt succeeds with `respW`. -/
def envOkW : ReqEnv :=
  { attemptOutcome := fun _ => .success respW,
    elapsedAt := fun _ => 0,
    decodeBytes := fun _ => "hi" }

/-- A network environment where every attempt times out. -/
def envTimeoutW : ReqEnv :=
  { attemptOutcome := fun _ => .timeoutFault,
    elapsedAt := fun _ => 0,
    decodeBytes := fun _ => "" }

/-- A configuration matching the CLI defaults. -/
def cfgW : ScanConfig :=
  { threads := 50, timeout := 5, retries := 3, delay := 0,
    userAgent := "Mozilla/5.0 (Windows NT 10.0; Win64; x64) AppleWebKit/537.36",
    followRedirects := true, ignoreSsl := false, verbose := false }

/-- Whether an attempt outcome is one of the three except-clauses. -/
def AttemptOutcome.isFault : AttemptOutcome → Bool
  | .success _ => false
  | _ => true

/-- When every attempt from `attempt` through `retries` faults, the loop
runs them all, sleeps between consecutive ones, and finishes with the
error dictionary of the final attempt. -/
theorem makeRequestGo_all_fail (env : ReqEnv) (retries : Nat) (url : String) :
    ∀ (rem attempt : Nat), attempt + rem = retries + 1 → attempt ≤ retries →
      (∀ n, attempt ≤ n → n ≤ retries → (env.attemptOutcome n).isFault = true) →
      makeRequestGo env retries url rem attempt =
        (some (errorResult env (faultKind (env.attemptOutcome retries)) url retries),
         List.range' attempt rem,
         (List.range' attempt (rem - 1)).map backoffWait) := by
  intro rem
  induction rem with
  | zero => intro attempt hinv hle _; omega
  | succ rem ih =>
    intro attempt hinv hle hfail
    unfold makeRequestGo
    cases houtcome : env.attemptOutcome attempt with
    | success resp =>
      have hbad := hfail attempt (le_refl _) hle
      rw [houtcome] at hbad
      exact absurd hbad (by simp [AttemptOutcome.isFault])
    | timeoutFault =>
      dsimp only
      by_cases hlast : attempt = retries
      · subst hlast
        have hrem : rem = 0 := by omega
        subst hrem
        rw [houtcome, if_pos rfl]
        rfl
      · rw [if_neg hlast]
        have hrem : ∃ r, rem = r + 1 := ⟨rem - 1, by omega⟩
        obtain ⟨r, rfl⟩ := hrem
        rw [ih (attempt + 1) (by omega) (by omega)
          (fun n hn₁ hn₂ => hfail n (by omega) hn₂)]
        simp only [List.range'_succ, List.map_cons, Nat.add_sub_cancel]
    | clientFault msg =>
      dsimp only
      by_cases hlast : attempt = retries
      · subst hlast
        have hrem : rem = 0 := by omega
        subst hrem
        rw [houtcome, if_pos rfl]
        rfl
      · rw [if_neg hlast]
        have hrem : ∃ r, rem = r + 1 := ⟨rem - 1, by omega⟩
        obtain ⟨r, rfl⟩ := hrem
        rw [ih (attempt + 1) (by omega) (by omega)
          (fun n hn₁ hn₂ => hfail n (by omega) hn₂)]
        simp only [List.range'_succ, List.map_cons, Nat.add_sub_cancel]
    | otherFault msg =>
      dsimp only
      by_cases hlast : attempt = retries
      · subst hlast
        have hrem : rem = 0 := by omega
        subst hrem
        rw [houtcome, if_pos rfl]
        rfl
      · rw [if_neg hlast]
        have hrem : ∃ r, rem = r + 1 := ⟨rem - 1, by omega⟩
        obtain ⟨r, rfl⟩ := hrem
        rw [ih (attempt + 1) (by omega) (by omega)
          (fun n hn₁ hn₂ => hfail n (by omega) hn₂)]
        simp only [List.range'_succ, List.map_cons, Nat.add_sub_cancel]

/-- C3: when every attempt at a URL fails, `make_request` performs
exactly `retries + 1` attempts (numbered `0 .. retries`), never lets the
fault escape (it returns a dictionary, not `None`, and in particular
never reaches the `return None` fall-through), and the returned
dictionary is the error dictionary of the final attempt: its `attempts`
entry is `retries + 1` and its `error` entry is the timeout /
transport-error / other classification of the final fault. -/
theorem make_request_exhausts_all_attempts
    (env : ReqEnv) (cfg : ScanConfig) (url : String)
    (hfail : ∀ n, n ≤ cfg.retries → (env.attemptOutcome n).isFault = true) :
    make_request env cfg url =
      (some (errorResult env (faultKind (env.attemptOutcome cfg.retries)) url cfg.retries),
       List.range (cfg.retries + 1),
       (List.range cfg.retries).map backoffWait) ∧
    dlookup (errorResult env (faultKind (env.attemptOutcome cfg.retries)) url cfg.retries)
        "attempts" = some (.int (cfg.retries + 1)) ∧
    dlookup (errorResult env (faultKind (env.attemptOutcome cfg.retries)) url cfg.retries)
        "error" = some (.str (faultKind (env.attemptOutcome cfg.retries))) ∧
    (faultKind (env.attemptOutcome cfg.retries) = "timeout" ∨
     (∃ m, env.attemptOutcome cfg.retries = .clientFault m ∧
        faultKind (env.attemptOutcome cfg.retries) = "client_error: " ++ m) ∨
     (∃ m, env.attemptOutcome cfg.retries = .otherFault m ∧
        faultKind (env.attemptOutcome cfg.retries) = m)) := by
  refine ⟨?_, errorResult_attempts env _ url _, errorResult_error env _ url _, ?_⟩
  · unfold make_request
    rw [makeRequestGo_all_fail env cfg.retries url (cfg.retries + 1) 0 (by omega)
      (by omega) (fun n _ hn => hfail n hn)]
    rw [List.range_eq_range', List.range_eq_range']
    rfl
  · have hbad := hfail cfg.retries (le_refl _)
    cases h : env.attemptOutcome cfg.retries with
    | success resp => rw [h] at hbad; exact absurd hbad (by simp [AttemptOutcome.isFault])
    | timeoutFault => left; rfl
    | clientFault m => right; left; exact ⟨m, rfl, rfl⟩
    | otherFault m => right; right; exact ⟨m, rfl, rfl⟩

theorem make_request_exhausts_all_attempts_witness :
    make_request envTimeoutW cfgW "http://127.0.0.1:9" =
      (some (errorResult envTimeoutW
        (faultKind (envTimeoutW.attemptOutcome cfgW.retries)) "http://127.0.0.1:9"
        cfgW.retries),
       List.range (cfgW.retries + 1),
       (List.range cfgW.retries).map backoffWait) ∧
    dlookup (errorResult envTimeoutW
        (faultKind (envTimeoutW.attemptOutcome cfgW.retries)) "http://127.0.0.1:9"
        cfgW.retries) "attempts" = some (.int (cfgW.retries + 1)) ∧
    dlookup (errorResult envTimeoutW
        (faultKind (envTimeoutW.attemptOutcome cfgW.retries)) "http://127.0.0.1:9"
        cfgW.retries) "error" =
      some (.str (faultKind (envTimeoutW.attemptOutcome cfgW.retries))) ∧
    (faultKind (envTimeoutW.attemptOutcome cfgW.retries) = "timeout" ∨
     (∃ m, envTimeoutW.attemptOutcome cfgW.retries = .clientFault m ∧
        faultKind (envTimeoutW.attemptOutcome cfgW.retries) = "client_error: " ++ m) ∨
     (∃ m, envTimeoutW.attemptOutcome cfgW.retries = .otherFault m ∧
        faultKind (envTimeoutW.attemptOutcome cfgW.retries) = m)) :=
  make_request_exhausts_all_attempts envTimeoutW cfgW "http://127.0.0.1:9"
    (fun _ _ => rfl)

/-! ### The retry backoff (claim about jitter) -/

/-- Modelled from the spec (§4.1 retry policy): the set of wait
durations the spec allows before the retry that follows failed attempt
`attempt` — the capped exponential backoff plus a jitter drawn from
`[0, 1)` seconds. -/
def specRetryWaits (attempt : Nat) : Set ℚ :=
  {w | ∃ j : ℚ, 0 ≤ j ∧ j < 1 ∧ w = min ((1 / 2) * 2 ^ attempt) 5 + j}

/-- The set of wait durations the code can actually perform before the
retry that follows failed attempt `attempt`: `asyncio.sleep` is called
with the deterministic value `min(0.5 * (2 ** attempt), 5)`
(http_client.py line 217), so the set is a singleton. -/
def codeRetryWaits (attempt : Nat) : Set ℚ :=
  {backoffWait attempt}

/-- C7 counterexample: the waits the spec describes (with jitter) are
not the waits the code performs.  After failed attempt 0 the spec allows
the wait 1 s (jitter 1/2), but the code always sleeps exactly 1/2 s. -/
theorem backoff_jitter_counterexample : specRetryWaits 0 ≠ codeRetryWaits 0 := by
  intro h
  have hmin : min ((1 / 2 : ℚ) * 2 ^ (0 : Nat)) 5 = 1 / 2 := by
    rw [pow_zero, mul_one]
    exact min_eq_left (by norm_num)
  have h1 : (1 : ℚ) ∈ specRetryWaits 0 := by
    refine ⟨1 / 2, by norm_num, by norm_num, ?_⟩
    rw [hmin]
    norm_num
  rw [h] at h1
  have h2 : (1 : ℚ) = backoffWait 0 := h1
  rw [backoffWait, hmin] at h2
  norm_num at h2

/-- C7 (amended): the wait before each retry is exactly
`min(0.5 * 2 ^ attempt, 5)` seconds, with no jitter added; when every
attempt fails, `make_request` performs exactly these `retries` sleeps,
in attempt order. -/
theorem make_request_backoff_no_jitter
    (env : ReqEnv) (cfg : ScanConfig) (url : String)
    (hfail : ∀ n, n ≤ cfg.retries → (env.attemptOutcome n).isFault = true) :
    (make_request env cfg url).2.2 =
      (List.range cfg.retries).map (fun a => min ((1 / 2) * (2 : ℚ) ^ a) 5) := by
  unfold make_request
  rw [makeRequestGo_all_fail env cfg.retries url (cfg.retries + 1) 0 (by omega)
    (by omega) (fun n _ hn => hfail n hn)]
  rw [List.range_eq_range']
  rfl

theorem make_request_backoff_no_jitter_witness :
    (make_request envTimeoutW cfgW "http://127.0.0.1:9").2.2 =
      (List.range cfgW.retries).map (fun a => min ((1 / 2) * (2 : ℚ) ^ a) 5) :=
  make_request_backoff_no_jitter envTimeoutW cfgW "http://127.0.0.1:9" (fun _ _ => rfl)

/-! ### Dual-scheme resolution (`get`, `format_url`, `check_both_schemes`) -/

/-- Python `str.startswith` on character sequences (structural, so that
concrete instances evaluate). -/
def charsStartWith : List Char → List Char → Bool
  | _, [] => true
  | [], _ :: _ => false
  | c :: cs, p :: ps => (c == p) && charsStartWith cs ps

/-- Python `s.startswith(pre)`. -/
def pyStartsWith (s pre : String) : Bool :=
  charsStartWith s.data pre.data

/-- Python truthiness of `d.get(k)`: a missing key gives `None`, which is
falsy; otherwise the value's own truthiness. -/
def valueTruthyOpt : Option Value → Bool
  | none => false
  | some v => valueTruthy v

/-- `AsyncHttpClient.get(url)` (http_client.py lines 221-226): returns
`(result, result.get('content', ''))` when the `make_request` result is
truthy (a non-empty dict) and contains `status_code`, else
`(None, None)`.  `envOf` gives the network environment of each URL
probed. -/
def get (envOf : String → ReqEnv) (cfg : ScanConfig) (url : String) :
    Option Dict × Option Value :=
  match (make_request (envOf url) cfg url).1 with
  | some d =>
    if !d.isEmpty && hasKey d "status_code" then
      (some d, some (dgetD d "content" (.str "")))
    else (none, none)
  | none => (none, none)

/-- `AsyncHttpClient.format_url(subdomain, scheme)` (http_client.py
lines 235-239): prepend the scheme unless the subdomain already starts
with `http://` or `https://`. -/
def format_url (subdomain : String) (scheme : String) : String :=
  if !(pyStartsWith subdomain "http://" || pyStartsWith subdomain "https://") then
    scheme ++ "://" ++ subdomain
  else subdomain

/-- The `for scheme in schemes` loop of
`AsyncHttpClient.check_both_schemes` (http_client.py lines 245-254):
returns the `(response, content, url)` of the first scheme whose `get`
yields a response with a truthy `status_code`, else `(None, None, "")`;
also collects the list of URLs actually probed, in order. -/
def checkSchemesGo (envOf : String → ReqEnv) (cfg : ScanConfig) (subdomain : String) :
    List String → (Option Dict × Option Value × String) × List String
  | [] => ((none, none, ""), [])
  | scheme :: restSchemes =>
    let url := format_url subdomain scheme
    let rc := get envOf cfg url
    match rc.1 with
    | some d =>
      if valueTruthyOpt (dlookup d "status_code") then ((some d, rc.2, url), [url])
      else
        let r := checkSchemesGo envOf cfg subdomain restSchemes
        (r.1, url :: r.2)
    | none =>
      let r := checkSchemesGo envOf cfg subdomain restSchemes
      (r.1, url :: r.2)

/-- `AsyncHttpClient.check_both_schemes(subdomain)` (http_client.py
lines 241-254), with `schemes = ['https', 'http']`. -/
def check_both_schemes (envOf : String → ReqEnv) (cfg : ScanConfig)
    (subdomain : String) : (Option Dict × Option Value × String) × List String :=
  checkSchemesGo envOf cfg subdomain ["https", "http"]

/-- Whatever `get` returns as a response carries a status code. -/
theorem get_some_has_status (envOf : String → ReqEnv) (cfg : ScanConfig)
    (url : String) (d : Dict) (h : (get envOf cfg url).1 = some d) :
    hasKey d "status_code" = true := by
  unfold get at h
  revert h
  cases (make_request (envOf url) cfg url).1 with
  | none => intro h; exact absurd h (by simp)
  | some d₀ =>
    dsimp only
    by_cases hc : (!d₀.isEmpty && hasKey d₀ "status_code") = true
    · rw [if_pos hc]
      dsimp only
      intro h
      simp only [Option.some.injEq] at h
      subst h
      exact (Bool.and_eq_true _ _ |>.mp hc).2
    · rw [if_neg hc]
      dsimp only
      intro h
      exact absurd h (by simp)

/-- A response returned by `get` is the `make_request` dictionary. -/
theorem get_some_make_request (envOf : String → ReqEnv) (cfg : ScanConfig)
    (url : String) (d : Dict) (h : (get envOf cfg url).1 = some d) :
    (make_request (envOf url) cfg url).1 = some d := by
  unfold get at h
  revert h
  cases hm : (make_request (envOf url) cfg url).1 with
  | none => intro h; exact absurd h (by simp)
  | some d₀ =>
    dsimp only
    by_cases hc : (!d₀.isEmpty && hasKey d₀ "status_code") = true
    · rw [if_pos hc]
      dsimp only
      intro h
      simp only [Option.some.injEq] at h
      subst h
      rfl
    · rw [if_neg hc]
      dsimp only
      intro h
      exact absurd h (by simp)

/-- Under well-formed responses (nonzero HTTP status), the status code
of a response returned by `get` is truthy. -/
theorem get_some_status_truthy (envOf : String → ReqEnv) (cfg : ScanConfig)
    (url : String) (d : Dict)
    (hwf : ∀ n resp, (envOf url).attemptOutcome n = .success resp → 0 < resp.status)
    (h : (get envOf cfg url).1 = some d) :
    valueTruthyOpt (dlookup d "status_code") = true := by
  have hmr := get_some_make_request envOf cfg url d h
  rcases makeRequestGo_shape (envOf url) cfg.retries url (cfg.retries + 1) 0 d hmr with
    ⟨resp, a, hsuc, rfl⟩ | ⟨kind, a, rfl⟩
  · rw [successResult_status]
    have hpos := hwf a resp hsuc
    simp only [valueTruthyOpt, valueTruthy, bne_iff_ne, ne_eq]
    omega
  · have hk := get_some_has_status envOf cfg url _ h
    unfold hasKey at hk
    rw [errorResult_no_status] at hk
    exact absurd hk (by simp)

/-- C5: for a target that carries no scheme prefix, `check_both_schemes`
probes `https://target` first and `http://target` second, in that fixed
order; it returns the response, body and effective URL of the first
scheme whose probe yields a non-error result (one carrying a status
code), and the none outcome `(None, None, "")` when neither does. -/
theorem check_both_schemes_https_then_http
    (envOf : String → ReqEnv) (cfg : ScanConfig) (sub : String)
    (hns : (pyStartsWith sub "http://" || pyStartsWith sub "https://") = false)
    (hwf : ∀ u n resp, (envOf u).attemptOutcome n = .success resp → 0 < resp.status) :
    format_url sub "https" = "https://" ++ sub ∧
    format_url sub "http" = "http://" ++ sub ∧
    (∀ d, (get envOf cfg ("https://" ++ sub)).1 = some d →
      check_both_schemes envOf cfg sub =
        ((some d, (get envOf cfg ("https://" ++ sub)).2, "https://" ++ sub),
         ["https://" ++ sub])) ∧
    ((get envOf cfg ("https://" ++ sub)).1 = none →
      ∀ d, (get envOf cfg ("http://" ++ sub)).1 = some d →
      check_both_schemes envOf cfg sub =
        ((some d, (get envOf cfg ("http://" ++ sub)).2, "http://" ++ sub),
         ["https://" ++ sub, "http://" ++ sub])) ∧
    ((get envOf cfg ("https://" ++ sub)).1 = none →
      (get envOf cfg ("http://" ++ sub)).1 = none →
      check_both_schemes envOf cfg sub =
        ((none, none, ""), ["https://" ++ sub, "http://" ++ sub])) ∧
    (∀ u d, (get envOf cfg u).1 = some d → hasKey d "status_code" = true) := by
  have hfu₁ : format_url sub "https" = "https://" ++ sub := by
    unfold format_url
    rw [hns]
    rfl
  have hfu₂ : format_url sub "http" = "http://" ++ sub := by
    unfold format_url
    rw [hns]
    rfl
  refine ⟨hfu₁, hfu₂, ?_, ?_, ?_, fun u d h => get_some_has_status envOf cfg u d h⟩
  · intro d hd
    unfold check_both_schemes checkSchemesGo
    dsimp only
    rw [hfu₁, hd]
    dsimp only
    rw [if_pos (get_some_status_truthy envOf cfg _ d (hwf _) hd)]
  · intro h₁ d hd
    unfold check_both_schemes checkSchemesGo
    dsimp only
    rw [hfu₁, h₁]
    dsimp only
    unfold checkSchemesGo
    dsimp only
    rw [hfu₂, hd]
    dsimp only
    rw [if_pos (get_some_status_truthy envOf cfg _ d (hwf _) hd)]
  · intro h₁ h₂
    unfold check_both_schemes checkSchemesGo
    dsimp only
    rw [hfu₁, h₁]
    dsimp only
    unfold checkSchemesGo
    dsimp only
    rw [hfu₂, h₂]
    rfl

theorem check_both_schemes_https_then_http_witness :
    format_url "api.example.com" "https" = "https://" ++ "api.example.com" ∧
    format_url "api.example.com" "http" = "http://" ++ "api.example.com" ∧
    (∀ d, (get (fun _ => envOkW) cfgW ("https://" ++ "api.example.com")).1 = some d →
      check_both_schemes (fun _ => envOkW) cfgW "api.example.com" =
        ((some d, (get (fun _ => envOkW) cfgW ("https://" ++ "api.example.com")).2,
          "https://" ++ "api.example.com"),
         ["https://" ++ "api.example.com"])) ∧
    ((get (fun _ => envOkW) cfgW ("https://" ++ "api.example.com")).1 = none →
      ∀ d, (get (fun _ => envOkW) cfgW ("http://" ++ "api.example.com")).1 = some d →
      check_both_schemes (fun _ => envOkW) cfgW "api.example.com" =
        ((some d, (get (fun _ => envOkW) cfgW ("http://" ++ "api.example.com")).2,
          "http://" ++ "api.example.com"),
         ["https://" ++ "api.example.com", "http://" ++ "api.example.com"])) ∧
    ((get (fun _ => envOkW) cfgW ("https://" ++ "api.example.com")).1 = none →
      (get (fun _ => envOkW) cfgW ("http://" ++ "api.example.com")).1 = none →
      check_both_schemes (fun _ => envOkW) cfgW "api.example.com" =
        ((none, none, ""), ["https://" ++ "api.example.com", "http://" ++ "api.example.com"])) ∧
    (∀ u d, (get (fun _ => envOkW) cfgW u).1 = some d → hasKey d "status_code" = true) :=
  check_both_schemes_https_then_http (fun _ => envOkW) cfgW "api.example.com"
    (by decide) (fun _ n resp h => by
      have hr : respW = resp := by
        have hh : AttemptOutcome.success respW = AttemptOutcome.success resp := h
        injection hh
      rw [← hr]
      decide)

theorem make_request_status_error_exclusive_witness :
    (hasKey (successResult envOkW respW 0) "status_code" = true ∧
     hasKey (successResult envOkW respW 0) "error" = false) ∨
    (hasKey (successResult envOkW respW 0) "error" = true ∧
     hasKey (successResult envOkW respW 0) "status_code" = false) :=
  make_request_status_error_exclusive envOkW cfgW "https://www.example.com"
    (successResult envOkW respW 0) rfl

/-! ### The scan orchestrator (`SubdomainScanner`) -/

/-- Outcome of awaiting one module invocation —
`asyncio.wait_for(module_instance.safe_scan(subdomain), timeout=...)` —
at the orchestrator boundary (scanner.py lines 64-87): the awaited
dictionary, an `asyncio.TimeoutError`, or a propagating exception.  A
module returning `None` behaves exactly like one returning `{}` (both
are falsy, so neither is merged); it is modelled as `ok []`. -/
inductive ModuleOutcome where
  | ok (fields : Dict)
  | timedOut
  | exc (msg : String)

/-- The contribution of one module to the record (scanner.py lines
79-87): a non-empty result is merged via `result.update(...)`, a timeout
writes `<module>_timeout: True`, an exception writes
`<module>_error: str(e)`. -/
def moduleContribution (name : String) : ModuleOutcome → Dict
  | .ok fields => if fields.isEmpty then [] else fields
  | .timedOut => [(name ++ "_timeout", .bool true)]
  | .exc msg => [(name ++ "_error", .str msg)]

/-- The `scan_error` entry appended by the outer `except` handler of
`scan_subdomain` (scanner.py lines 93-95) when a fault escapes all
per-module handling (in this code, only the optional `asyncio.sleep`
after the module loop can raise there). -/
def scanErrTail : Option String → Dict
  | none => []
  | some msg => [("scan_error", .str msg)]

/-- `SubdomainScanner.scan_subdomain(subdomain)` (scanner.py lines
49-98).  The returned pair is the record and the invocation trace: each
enabled module, in execution order, with the `asyncio.wait_for` timeout
budget it ran under (`self.config.get('timeout', 5) * 2`; every module
inherits `safe_scan` from `BaseModule`, and both branches of the
`hasattr` check use the same budget).  `mo` gives the outcome of each
module's invocation for this target; `delayFault` is the fault, if any,
escaping the outer try body after the loop. -/
def scan_subdomain (cfg : ScanConfig) (modules : List String)
    (mo : String → ModuleOutcome) (delayFault : Option String)
    (subdomain : String) (ts : Nat) : Dict × List (String × Nat) :=
  let init : Dict := [("subdomain", .str subdomain), ("timestamp", .int ts)]
  let looped := modules.foldl
    (fun (acc : Dict × List (String × Nat)) m =>
      (acc.1 ++ moduleContribution m (mo m), acc.2 ++ [(m, cfg.timeout * 2)]))
    (init, [])
  (looped.1 ++ scanErrTail delayFault, looped.2)

/-- One gathered task result in `scan_batch`
(`asyncio.gather(..., return_exceptions=True)`): the dictionary the task
returned, or the exception it raised. -/
inductive TaskResult where
  | value (d : Dict)
  | exc (msg : String)

/-- The list returned by `asyncio.gather(*tasks, return_exceptions=True)`
in `scan_batch` (scanner.py lines 108-109): one entry per subdomain, in
task order (gather preserves the order the tasks were created in, which
is the input order; the semaphore only schedules).  `scanFn` is the
value `scan_subdomain` returns for each target; `gatherFault i` is the
exception, if any, captured for task `i`. -/
def gatherResults (scanFn : String → Dict) (gatherFault : Nat → Option String)
    (subs : List String) : List TaskResult :=
  (List.range subs.length).map fun i =>
    match gatherFault i with
    | some msg => .exc msg
    | none => .value (scanFn (subs.getD i ""))

/-- The minimal record built for a task whose gathered result is an
exception (scanner.py lines 116-120). -/
def batchErrorRecord (sub msg : String) (ts : Nat) : Dict :=
  [("subdomain", .str sub), ("batch_error", .str msg), ("timestamp", .int ts)]

/-- `SubdomainScanner.scan_batch(subdomains)` (scanner.py lines 100-124):
gather one result per subdomain, then replace each exception entry by
the minimal `batch_error` record.  `tsAt i` is the `int(time.time())`
read while processing entry `i`. -/
def scan_batch (scanFn : String → Dict) (gatherFault : Nat → Option String)
    (tsAt : Nat → Nat) (subs : List String) : List Dict :=
  (gatherResults scanFn gatherFault subs).enum.map fun ir =>
    match ir.2 with
    | .exc msg => batchErrorRecord (subs.getD ir.1 "") msg (tsAt ir.1)
    | .value d => d

/-- The record built for every subdomain of a batch whose `scan_batch`
call itself raised (scanner.py lines 177-185). -/
def batchProcessingErrorRecord (sub msg : String) (ts : Nat) : Dict :=
  [("subdomain", .str sub), ("batch_processing_error", .str msg), ("timestamp", .int ts)]

/-- The batch loop of `SubdomainScanner.scan_subdomains` (scanner.py
lines 168-185; the progress-bar path, lines 141-165, runs the identical
loop): slice `subs` into batches of `bs`, appending each batch's results
in order; if awaiting a batch raises, append one
`batch_processing_error` record per subdomain of that batch instead.
`j` is the batch number; `batchFault j` the exception, if any, of batch
`j`; `gatherFault j` and `tsAt j` the batch's per-entry oracles.
(Python's `range(0, len, bs)` raises on `bs = 0`, which only happens for
an empty input; that case is excluded by the theorems' hypotheses and
returns `[]` here.) -/
def scanBatchesGo (scanFn : String → Dict) (gatherFault : Nat → Nat → Option String)
    (batchFault : Nat → Option String) (tsAt : Nat → Nat → Nat) (bs : Nat)
    (j : Nat) (subs : List String) : List Dict :=
  if h : bs = 0 ∨ subs = [] then []
  else
    let batch := subs.take bs
    let thisBatch :=
      match batchFault j with
      | some msg =>
        batch.enum.map (fun ps => batchProcessingErrorRecord ps.2 msg (tsAt j ps.1))
      | none => scan_batch scanFn (gatherFault j) (tsAt j) batch
    thisBatch ++ scanBatchesGo scanFn gatherFault batchFault tsAt bs (j + 1) (subs.drop bs)
termination_by subs.length
decreasing_by
  push_neg at h
  simp only [List.length_drop]
  have hpos : 0 < subs.length := List.length_pos.mpr h.2
  omega

/-- `SubdomainScanner.scan_subdomains(subdomains)` (scanner.py lines
126-188): batch size is `min(config.get('threads', 50), len(subdomains))`
(line 129), batches start at number 0. -/
def scan_subdomains (scanFn : String → Dict) (gatherFault : Nat → Nat → Option String)
    (batchFault : Nat → Option String) (tsAt : Nat → Nat → Nat)
    (cfg : ScanConfig) (subs : List String) : List Dict :=
  scanBatchesGo scanFn gatherFault batchFault tsAt (min cfg.threads subs.length) 0 subs

/-! ### Structure of the scan record -/

theorem scan_foldl_spec (cfg : ScanConfig) (mo : String → ModuleOutcome)
    (mods : List String) :
    ∀ (accD : Dict) (accT : List (String × Nat)),
      mods.foldl (fun (acc : Dict × List (String × Nat)) m =>
          (acc.1 ++ moduleContribution m (mo m), acc.2 ++ [(m, cfg.timeout * 2)]))
        (accD, accT) =
      (accD ++ mods.flatMap (fun m => moduleContribution m (mo m)),
       accT ++ mods.map (fun m => (m, cfg.timeout * 2))) := by
  induction mods with
  | nil => intro accD accT; simp
  | cons m tl ih =>
    intro accD accT
    rw [List.foldl_cons]
    dsimp only
    rw [ih]
    simp [List.append_assoc]

theorem scan_subdomain_record (cfg : ScanConfig) (mods : List String)
    (mo : String → ModuleOutcome) (df : Option String) (sub : String) (ts : Nat) :
    (scan_subdomain cfg mods mo df sub ts).1 =
      ([("subdomain", .str sub), ("timestamp", .int ts)]
        ++ mods.flatMap (fun m => moduleContribution m (mo m)))
        ++ scanErrTail df := by
  unfold scan_subdomain
  dsimp only
  rw [scan_foldl_spec]

theorem scan_subdomain_trace (cfg : ScanConfig) (mods : List String)
    (mo : String → ModuleOutcome) (df : Option String) (sub : String) (ts : Nat) :
    (scan_subdomain cfg mods mo df sub ts).2 =
      mods.map (fun m => (m, cfg.timeout * 2)) := by
  unfold scan_subdomain
  dsimp only
  rw [scan_foldl_spec]
  simp

theorem append_ne_of_data_not_suffix (m s t : String)
    (h : ¬ s.data <:+ t.data) : m ++ s ≠ t := by
  intro he
  exact h ⟨m.data, by rw [← String.data_append, he]⟩

theorem dlookup_singleton_self (k : String) (v : Value) :
    dlookup [(k, v)] k = some v := by
  unfold dlookup
  rw [List.foldl_cons, List.foldl_nil]
  dsimp only
  rw [if_pos rfl]

theorem hasKey_false_iff (d : Dict) (k : String) :
    hasKey d k = false ↔ dlookup d k = none := by
  unfold hasKey
  cases dlookup d k <;> simp

theorem hasKey_flatMap_of_mem (c : String → Dict) (k m : String)
    (mods : List String) (hm : m ∈ mods) (hc : hasKey (c m) k = true) :
    hasKey (mods.flatMap c) k = true := by
  induction mods with
  | nil => exact absurd hm (List.not_mem_nil _)
  | cons hd tl ih =>
    rw [List.flatMap_cons, hasKey_append]
    rcases List.mem_cons.mp hm with rfl | hm₂
    · rw [hc]; rfl
    · rw [ih hm₂]
      simp

theorem dlookup_flatMap_none (c : String → Dict) (k : String)
    (mods : List String) (hall : ∀ m, m ∈ mods → hasKey (c m) k = false) :
    dlookup (mods.flatMap c) k = none := by
  induction mods with
  | nil => rfl
  | cons hd tl ih =>
    rw [List.flatMap_cons, dlookup_append,
      ih (fun m hm => hall m (List.mem_cons_of_mem _ hm)),
      (hasKey_false_iff _ _).mp (hall hd (List.mem_cons_self _ _))]
    rfl

/-- If every value bound to `k` anywhere after the initial two entries
equals the initial value anyway (or `k` is never rebound), the lookup
returns the initial value. -/
theorem dlookup_init_append (init R : Dict) (k : String) (v : Value)
    (hinit : dlookup init k = some v)
    (hR : ∀ w, (k, w) ∈ R → w = v) :
    dlookup (init ++ R) k = some v := by
  rw [dlookup_append]
  rcases dlookup_const R k v hR with h | h <;> rw [h]
  · simpa using hinit
  · rfl

/-- Decompose membership in one module's contribution. -/
theorem mem_contrib_key (m : String) (o : ModuleOutcome) (k : String) (w : Value)
    (hmem : (k, w) ∈ moduleContribution m o) :
    (∃ f, o = .ok f ∧ (k, w) ∈ f) ∨ k = m ++ "_timeout" ∨ k = m ++ "_error" := by
  cases o with
  | ok f =>
    left
    refine ⟨f, rfl, ?_⟩
    simp only [moduleContribution] at hmem
    by_cases hf : f.isEmpty
    · rw [if_pos hf] at hmem
      exact absurd hmem (List.not_mem_nil _)
    · rw [if_neg hf] at hmem
      exact hmem
  | timedOut =>
    right; left
    simp only [moduleContribution] at hmem
    exact congrArg Prod.fst (List.mem_singleton.mp hmem)
  | exc msg =>
    right; right
    simp only [moduleContribution] at hmem
    exact congrArg Prod.fst (List.mem_singleton.mp hmem)

/-- A key bound in the initial record whose value no module rebinds
differently survives every merge, marker and error tail. -/
theorem scan_record_key_const (cfg : ScanConfig) (mods : List String)
    (mo : String → ModuleOutcome) (df : Option String) (sub : String) (ts : Nat)
    (k : String) (v : Value)
    (hinit : dlookup [("subdomain", Value.str sub), ("timestamp", Value.int ts)] k
      = some v)
    (hok : ∀ m f w, mo m = .ok f → (k, w) ∈ f → w = v)
    (hkt : ∀ m : String, m ++ "_timeout" ≠ k)
    (hke : ∀ m : String, m ++ "_error" ≠ k)
    (hks : k ≠ "scan_error") :
    dlookup (scan_subdomain cfg mods mo df sub ts).1 k = some v := by
  rw [scan_subdomain_record, List.append_assoc]
  apply dlookup_init_append _ _ k v hinit
  intro w hw
  rcases List.mem_append.mp hw with hw | hw
  · rcases List.mem_flatMap.mp hw with ⟨m, hm, hmem⟩
    rcases mem_contrib_key m (mo m) k w hmem with ⟨f, hf, hmemf⟩ | hk | hk
    · exact hok m f w hf hmemf
    · exact absurd hk.symm (hkt m)
    · exact absurd hk.symm (hke m)
  · cases df with
    | none => exact absurd hw (List.not_mem_nil _)
    | some msg =>
      have hks₂ : k = "scan_error" :=
        congrArg Prod.fst (List.mem_singleton.mp hw)
      exact absurd hks₂ hks

theorem scan_batch_length (scanFn : String → Dict) (gF : Nat → Option String)
    (tsAt : Nat → Nat) (subs : List String) :
    (scan_batch scanFn gF tsAt subs).length = subs.length := by
  unfold scan_batch gatherResults
  simp [List.enum_length]

theorem scan_batch_getD (scanFn : String → Dict) (gF : Nat → Option String)
    (tsAt : Nat → Nat) (subs : List String) (i : Nat) (h : i < subs.length) :
    (scan_batch scanFn gF tsAt subs).getD i [] =
      match gF i with
      | some msg => batchErrorRecord (subs.getD i "") msg (tsAt i)
      | none => scanFn (subs.getD i "") := by
  have hlen : i < ((gatherResults scanFn gF subs).enum.map (fun ir =>
      match ir.2 with
      | .exc msg => batchErrorRecord (subs.getD ir.1 "") msg (tsAt ir.1)
      | .value d => d)).length := by
    unfold gatherResults
    simpa [List.enum_length] using h
  unfold scan_batch
  rw [List.getD_eq_getElem?_getD, List.getElem?_eq_getElem hlen]
  simp only [Option.getD_some, List.getElem_map, List.getElem_enum]
  unfold gatherResults
  simp only [List.getElem_map, List.getElem_range]
  cases hgf : gF i <;> simp [hgf]

/-- C1: `scan_subdomain(T)` returns exactly one record whose `subdomain`
field is `T` and which carries a timestamp, whatever the modules and the
scan body do; and a fault that escapes all module-level handling during
a batch yields, at that target's position, a minimal record with the
target, a `batch_error` field and a timestamp — the batch keeps one
record per target.  The module hypothesis reflects the shipped modules:
none writes a `timestamp` key, and the ones that write `subdomain` bind
it to the scanned target itself. -/
theorem scan_subdomain_always_returns_target_record
    (cfg : ScanConfig) (mods : List String) (mo : String → ModuleOutcome)
    (df : Option String) (sub : String) (ts : Nat)
    (scanFn : String → Dict) (gF : Nat → Option String) (tsAt : Nat → Nat)
    (subs : List String)
    (hmods : ∀ m f, mo m = .ok f →
      (∀ v, ("subdomain", v) ∈ f → v = .str sub) ∧
      (∀ v, ("timestamp", v) ∈ f → False)) :
    dlookup (scan_subdomain cfg mods mo df sub ts).1 "subdomain"
        = some (.str sub) ∧
    dlookup (scan_subdomain cfg mods mo df sub ts).1 "timestamp"
        = some (.int ts) ∧
    (scan_batch scanFn gF tsAt subs).length = subs.length ∧
    (∀ i msg, i < subs.length → gF i = some msg →
      (scan_batch scanFn gF tsAt subs).getD i [] =
        batchErrorRecord (subs.getD i "") msg (tsAt i) ∧
      dlookup (batchErrorRecord (subs.getD i "") msg (tsAt i)) "subdomain"
        = some (.str (subs.getD i "")) ∧
      dlookup (batchErrorRecord (subs.getD i "") msg (tsAt i)) "timestamp"
        = some (.int (tsAt i)) ∧
      dlookup (batchErrorRecord (subs.getD i "") msg (tsAt i)) "batch_error"
        = some (.str msg)) := by
  refine ⟨?_, ?_, scan_batch_length scanFn gF tsAt subs, ?_⟩
  · apply scan_record_key_const cfg mods mo df sub ts "subdomain" (.str sub) rfl
    · intro m f w hf hw
      exact (hmods m f hf).1 w hw
    · intro m
      exact append_ne_of_data_not_suffix m "_timeout" "subdomain" (by decide)
    · intro m
      exact append_ne_of_data_not_suffix m "_error" "subdomain" (by decide)
    · decide
  · apply scan_record_key_const cfg mods mo df sub ts "timestamp" (.int ts) rfl
    · intro m f w hf hw
      exact absurd hw (fun hw => (hmods m f hf).2 w hw)
    · intro m
      exact append_ne_of_data_not_suffix m "_timeout" "timestamp" (by decide)
    · intro m
      exact append_ne_of_data_not_suffix m "_error" "timestamp" (by decide)
    · decide
  · intro i msg hi hgf
    refine ⟨?_, rfl, rfl, rfl⟩
    rw [scan_batch_getD scanFn gF tsAt subs i hi, hgf]

theorem scan_subdomain_always_returns_target_record_witness :
    dlookup (scan_subdomain cfgW ["status"] (fun _ => .timedOut) none
        "x.example.com" 1700000000).1 "subdomain"
        = some (.str "x.example.com") ∧
    dlookup (scan_subdomain cfgW ["status"] (fun _ => .timedOut) none
        "x.example.com" 1700000000).1 "timestamp"
        = some (.int 1700000000) ∧
    (scan_batch (fun _ => []) (fun _ => some "boom") (fun _ => 1700000001)
        ["x.example.com"]).length = ["x.example.com"].length ∧
    (∀ i msg, i < ["x.example.com"].length →
      (fun _ => some "boom") i = some msg →
      (scan_batch (fun _ => []) (fun _ => some "boom") (fun _ => 1700000001)
          ["x.example.com"]).getD i [] =
        batchErrorRecord (["x.example.com"].getD i "") msg 1700000001 ∧
      dlookup (batchErrorRecord (["x.example.com"].getD i "") msg 1700000001)
          "subdomain" = some (.str (["x.example.com"].getD i "")) ∧
      dlookup (batchErrorRecord (["x.example.com"].getD i "") msg 1700000001)
          "timestamp" = some (.int 1700000001) ∧
      dlookup (batchErrorRecord (["x.example.com"].getD i "") msg 1700000001)
          "batch_error" = some (.str msg)) :=
  scan_subdomain_always_returns_target_record cfgW ["status"]
    (fun _ => .timedOut) none "x.example.com" 1700000000
    (fun _ => []) (fun _ => some "boom") (fun _ => 1700000001) ["x.example.com"]
    (fun _ _ hmo => nomatch hmo)

/-- Lookup across a decomposition `A ++ (B ++ C)` where `B` binds `k`
and `C` does not: the later segments win, so the value comes from `B`. -/
theorem dlookup_middle (A B C : Dict) (k : String)
    (hB : hasKey B k = true) (hC : dlookup C k = none) :
    dlookup (A ++ (B ++ C)) k = dlookup B k := by
  obtain ⟨v, hv⟩ := Option.isSome_iff_exists.mp hB
  rw [dlookup_append, dlookup_append, hC, hv]
  rfl

/-- C4: modules run sequentially in enable order for a target, each
under an individual `asyncio.wait_for` budget of `2 ×` the configured
request timeout (the trace lists every enabled module exactly once, in
order, whatever the outcomes — a failing module never stops the loop); a
timed-out module leaves `<module>_timeout: True` and an excepting module
`<module>_error: <message>` in the record; a successful module's fields
are merged by shallow key union (the record is the concatenation of the
initial fields and each module's contribution in enable order), and on a
key collision the later binding wins: the value of a key bound by a
module that no later contribution rebinds is that module's value. -/
theorem modules_sequential_isolated_merge
    (cfg : ScanConfig) (mods : List String) (mo : String → ModuleOutcome)
    (df : Option String) (sub : String) (ts : Nat) :
    (scan_subdomain cfg mods mo df sub ts).2 =
      mods.map (fun m => (m, cfg.timeout * 2)) ∧
    (scan_subdomain cfg mods mo df sub ts).1 =
      ([("subdomain", .str sub), ("timestamp", .int ts)]
        ++ mods.flatMap (fun m => moduleContribution m (mo m)))
        ++ scanErrTail df ∧
    (∀ m, m ∈ mods → mo m = .timedOut →
      hasKey (scan_subdomain cfg mods mo df sub ts).1 (m ++ "_timeout") = true) ∧
    (∀ m msg, m ∈ mods → mo m = .exc msg →
      hasKey (scan_subdomain cfg mods mo df sub ts).1 (m ++ "_error") = true) ∧
    (∀ pre m post k, mods = pre ++ m :: post →
      hasKey (moduleContribution m (mo m)) k = true →
      (∀ m2, m2 ∈ post → hasKey (moduleContribution m2 (mo m2)) k = false) →
      hasKey (scanErrTail df) k = false →
      dlookup (scan_subdomain cfg mods mo df sub ts).1 k =
        dlookup (moduleContribution m (mo m)) k) := by
  refine ⟨scan_subdomain_trace cfg mods mo df sub ts,
    scan_subdomain_record cfg mods mo df sub ts, ?_, ?_, ?_⟩
  · intro m hm hmo
    rw [scan_subdomain_record, hasKey_append, hasKey_append]
    have hc : hasKey (moduleContribution m (mo m)) (m ++ "_timeout") = true := by
      rw [hmo]
      show (dlookup [(m ++ "_timeout", Value.bool true)] (m ++ "_timeout")).isSome = true
      rw [dlookup_singleton_self]
      rfl
    rw [hasKey_flatMap_of_mem _ _ m mods hm hc]
    simp
  · intro m msg hm hmo
    rw [scan_subdomain_record, hasKey_append, hasKey_append]
    have hc : hasKey (moduleContribution m (mo m)) (m ++ "_error") = true := by
      rw [hmo]
      show (dlookup [(m ++ "_error", Value.str msg)] (m ++ "_error")).isSome = true
      rw [dlookup_singleton_self]
      rfl
    rw [hasKey_flatMap_of_mem _ _ m mods hm hc]
    simp
  · intro pre m post k hsplit hk hpost herr
    have hrec : (scan_subdomain cfg mods mo df sub ts).1 =
        ([("subdomain", Value.str sub), ("timestamp", Value.int ts)]
          ++ pre.flatMap (fun m2 => moduleContribution m2 (mo m2)))
        ++ (moduleContribution m (mo m)
          ++ (post.flatMap (fun m2 => moduleContribution m2 (mo m2))
            ++ scanErrTail df)) := by
      rw [scan_subdomain_record, hsplit, List.flatMap_append, List.flatMap_cons]
      simp [List.append_assoc]
    rw [hrec]
    apply dlookup_middle _ _ _ k hk
    rw [dlookup_append, (hasKey_false_iff _ _).mp herr]
    exact dlookup_flatMap_none _ k post hpost

/-- Modules and outcomes used by concrete witnesses: `status` and
`server` succeed, `title` times out. -/
def modsW : List String := ["status", "title", "server"]

def moW : String → ModuleOutcome := fun m =>
  if m = "status" then .ok [("status_code", Value.int 200), ("accessible", Value.bool true)]
  else if m = "title" then .timedOut
  else .ok [("server", Value.str "nginx")]

theorem modules_sequential_isolated_merge_witness :
    hasKey (scan_subdomain cfgW modsW moW none "x.example.com" 1700000000).1
      ("title" ++ "_timeout") = true :=
  (modules_sequential_isolated_merge cfgW modsW moW none
    "x.example.com" 1700000000).2.2.1 "title" (by decide) rfl

/-! ### Order preservation across batches -/

/-- The record that `scan_subdomains` produces at offset `i`, as
determined by the fault oracles: `i` falls into batch `j + i / bs` at
position `i % bs`; a batch-level fault yields the
`batch_processing_error` record, a task-level fault the `batch_error`
record, and otherwise the scan record of the i-th subdomain. -/
def expectedRecord (scanFn : String → Dict) (gF : Nat → Nat → Option String)
    (bF : Nat → Option String) (tsAt : Nat → Nat → Nat) (bs j : Nat)
    (subs : List String) (i : Nat) : Dict :=
  match bF (j + i / bs) with
  | some msg =>
    batchProcessingErrorRecord (subs.getD i "") msg (tsAt (j + i / bs) (i % bs))
  | none =>
    match gF (j + i / bs) (i % bs) with
    | some msg => batchErrorRecord (subs.getD i "") msg (tsAt (j + i / bs) (i % bs))
    | none => scanFn (subs.getD i "")

theorem expectedRecord_shift (scanFn : String → Dict) (gF : Nat → Nat → Option String)
    (bF : Nat → Option String) (tsAt : Nat → Nat → Nat) (bs j i : Nat)
    (subs : List String) (hbs : 1 ≤ bs) (hge : bs ≤ i) :
    expectedRecord scanFn gF bF tsAt bs (j + 1) (subs.drop bs) (i - bs) =
      expectedRecord scanFn gF bF tsAt bs j subs i := by
  have hdiv : i / bs = (i - bs) / bs + 1 := Nat.div_eq_sub_div (by omega) hge
  have hmod : (i - bs) % bs = i % bs := (Nat.mod_eq_sub_mod hge).symm
  have harg : j + 1 + (i - bs) / bs = j + i / bs := by omega
  have hget : (subs.drop bs).getD (i - bs) "" = subs.getD i "" := by
    rw [List.getD_eq_getElem?_getD, List.getD_eq_getElem?_getD, List.getElem?_drop,
      show bs + (i - bs) = i from by omega]
  unfold expectedRecord
  rw [harg, hmod, hget]

theorem scanBatchesGo_length (scanFn : String → Dict) (gF : Nat → Nat → Option String)
    (bF : Nat → Option String) (tsAt : Nat → Nat → Nat) (bs : Nat) (hbs : 1 ≤ bs) :
    ∀ (n : Nat) (subs : List String), subs.length ≤ n → ∀ j,
      (scanBatchesGo scanFn gF bF tsAt bs j subs).length = subs.length := by
  intro n
  induction n with
  | zero =>
    intro subs hlen j
    have hnil : subs = [] := List.length_eq_zero.mp (Nat.le_zero.mp hlen)
    subst hnil
    unfold scanBatchesGo
    simp
  | succ n ih =>
    intro subs hlen j
    by_cases hnil : subs = []
    · subst hnil
      unfold scanBatchesGo
      simp
    · unfold scanBatchesGo
      rw [dif_neg (by push_neg; exact ⟨by omega, hnil⟩)]
      dsimp only
      rw [List.length_append,
        ih (subs.drop bs) (by rw [List.length_drop]; omega) (j + 1)]
      have hlenpos : 0 < subs.length := List.length_pos.mpr hnil
      cases hbf : bF j <;>
        simp [scan_batch_length, List.enum_length, List.length_take,
          List.length_drop] <;>
        omega

theorem scanBatchesGo_getD (scanFn : String → Dict) (gF : Nat → Nat → Option String)
    (bF : Nat → Option String) (tsAt : Nat → Nat → Nat) (bs : Nat) (hbs : 1 ≤ bs) :
    ∀ (n : Nat) (subs : List String), subs.length ≤ n → ∀ j i, i < subs.length →
      (scanBatchesGo scanFn gF bF tsAt bs j subs).getD i [] =
        expectedRecord scanFn gF bF tsAt bs j subs i := by
  intro n
  induction n with
  | zero =>
    intro subs hlen j i hi
    omega
  | succ n ih =>
    intro subs hlen j i hi
    have hnil : subs ≠ [] := by
      intro h
      rw [h] at hi
      exact absurd hi (by simp)
    have hlenpos : 0 < subs.length := List.length_pos.mpr hnil
    unfold scanBatchesGo
    rw [dif_neg (by push_neg; exact ⟨by omega, hnil⟩)]
    dsimp only
    by_cases hfirst : i < min bs subs.length
    · -- the index falls into the first slice
      have hdiv0 : i / bs = 0 := Nat.div_eq_of_lt (by omega)
      have hmod0 : i % bs = i := Nat.mod_eq_of_lt (by omega)
      cases hbf : bF j with
      | some msg =>
        have hlt : i < ((subs.take bs).enum.map (fun ps =>
            batchProcessingErrorRecord ps.2 msg (tsAt j ps.1))).length := by
          simp [List.enum_length, List.length_take]
          omega
        rw [List.getD_eq_getElem?_getD, List.getElem?_append_left (by simpa using hlt),
          List.getElem?_eq_getElem hlt]
        simp only [List.getElem_map, List.getElem_enum, Option.getD_some]
        unfold expectedRecord
        rw [hdiv0, Nat.add_zero, hbf, hmod0]
        have htake : (subs.take bs).getD i "" = subs.getD i "" := by
          rw [List.getD_eq_getElem?_getD, List.getD_eq_getElem?_getD,
            List.getElem?_take, if_pos (by omega)]
        rw [← htake]
        rw [List.getD_eq_getElem?_getD, List.getElem?_eq_getElem
          (by rw [List.length_take]; omega)]
        rfl
      | none =>
        have hlt : i < (scan_batch scanFn (gF j) (tsAt j) (subs.take bs)).length := by
          rw [scan_batch_length, List.length_take]
          omega
        rw [List.getD_eq_getElem?_getD, List.getElem?_append_left hlt,
          ← List.getD_eq_getElem?_getD,
          scan_batch_getD scanFn (gF j) (tsAt j) (subs.take bs) i
            (by rw [List.length_take]; omega)]
        unfold expectedRecord
        rw [hdiv0, Nat.add_zero, hbf, hmod0]
        have htake : (subs.take bs).getD i "" = subs.getD i "" := by
          rw [List.getD_eq_getElem?_getD, List.getD_eq_getElem?_getD,
            List.getElem?_take, if_pos (by omega)]
        rw [htake]
    · -- the index falls into a later slice
      have hbsle : bs ≤ i := by omega
      have hbslt : bs < subs.length := by omega
      have hthis : ∀ tb : List Dict, tb.length = min bs subs.length →
          (tb ++ scanBatchesGo scanFn gF bF tsAt bs (j + 1) (subs.drop bs)).getD i []
            = expectedRecord scanFn gF bF tsAt bs j subs i := by
        intro tb htb
        rw [List.getD_eq_getElem?_getD, List.getElem?_append_right (by omega),
          ← List.getD_eq_getElem?_getD, htb,
          show i - min bs subs.length = i - bs from by omega,
          ih (subs.drop bs) (by rw [List.length_drop]; omega) (j + 1) (i - bs)
            (by rw [List.length_drop]; omega),
          expectedRecord_shift scanFn gF bF tsAt bs j i subs hbs hbsle]
      cases hbf : bF j with
      | some msg =>
        exact hthis _ (by simp [List.enum_length, List.length_take])
      | none =>
        exact hthis _ (by rw [scan_batch_length, List.length_take])

/-- C10: for a non-empty input (and a positive thread count, which the
CLI guarantees), `scan_subdomains` returns exactly one record per input
subdomain, at the same offset: the i-th output is the scan record of the
i-th input, or — when that target's task or its whole batch faulted —
the corresponding error record still carrying the i-th subdomain; with
no faults at all the output is exactly the list of per-target scan
records in input order. -/
theorem scan_subdomains_preserves_order (scanFn : String → Dict)
    (gF : Nat → Nat → Option String) (bF : Nat → Option String)
    (tsAt : Nat → Nat → Nat) (cfg : ScanConfig) (subs : List String)
    (hne : subs ≠ []) (ht : 1 ≤ cfg.threads) :
    (scan_subdomains scanFn gF bF tsAt cfg subs).length = subs.length ∧
    (∀ i, i < subs.length →
      (scan_subdomains scanFn gF bF tsAt cfg subs).getD i [] =
        expectedRecord scanFn gF bF tsAt (min cfg.threads subs.length) 0 subs i) ∧
    (∀ i, i < subs.length →
      ((scan_subdomains scanFn gF bF tsAt cfg subs).getD i [] =
          scanFn (subs.getD i "") ∨
       (∃ msg t, (scan_subdomains scanFn gF bF tsAt cfg subs).getD i [] =
          batchErrorRecord (subs.getD i "") msg t) ∨
       (∃ msg t, (scan_subdomains scanFn gF bF tsAt cfg subs).getD i [] =
          batchProcessingErrorRecord (subs.getD i "") msg t))) ∧
    ((∀ j, bF j = none) → (∀ j p, gF j p = none) →
      ∀ i, i < subs.length →
        (scan_subdomains scanFn gF bF tsAt cfg subs).getD i [] =
          scanFn (subs.getD i "")) := by
  have hlenpos : 0 < subs.length := List.length_pos.mpr hne
  have hbs : 1 ≤ min cfg.threads subs.length := by omega
  have hchar : ∀ i, i < subs.length →
      (scan_subdomains scanFn gF bF tsAt cfg subs).getD i [] =
        expectedRecord scanFn gF bF tsAt (min cfg.threads subs.length) 0 subs i :=
    fun i hi => scanBatchesGo_getD scanFn gF bF tsAt _ hbs subs.length subs
      (le_refl _) 0 i hi
  refine ⟨scanBatchesGo_length scanFn gF bF tsAt _ hbs subs.length subs (le_refl _) 0,
    hchar, ?_, ?_⟩
  · intro i hi
    rw [hchar i hi]
    unfold expectedRecord
    cases bF (0 + i / min cfg.threads subs.length) with
    | some msg => right; right; exact ⟨msg, _, rfl⟩
    | none =>
      cases gF (0 + i / min cfg.threads subs.length) (i % min cfg.threads subs.length) with
      | some msg => right; left; exact ⟨msg, _, rfl⟩
      | none => left; rfl
  · intro hbF hgF i hi
    rw [hchar i hi]
    unfold expectedRecord
    rw [hbF, hgF]

theorem scan_subdomains_preserves_order_witness :
    (scan_subdomains (fun s => [("subdomain", Value.str s)])
        (fun _ _ => none) (fun _ => none) (fun _ _ => 0) cfgW
        ["a.example.com", "b.example.com"]).length =
      (["a.example.com", "b.example.com"] : List String).length :=
  (scan_subdomains_preserves_order (fun s => [("subdomain", Value.str s)])
    (fun _ _ => none) (fun _ => none) (fun _ _ => 0) cfgW
    ["a.example.com", "b.example.com"]
    (List.cons_ne_nil _ _) (by decide)).1

/-! ### CLI thread-count validation -/

/-- The thread-count validation in `cli.py` `main` (lines 201-207):
counts above 200 are capped to 200 (a console warning is printed, the
run continues); counts below 1 abort the run with `sys.exit(1)` before
any scanning begins. -/
def validateThreads (threads : Int) : Except String Int :=
  if threads > 200 then .ok 200
  else if threads < 1 then .error "Error: Thread count must be at least 1"
  else .ok threads

/-- The counting semaphore ceiling used by `scan_batch` (scanner.py line
102): `asyncio.Semaphore(self.config.get('threads', 50))`. -/
def scanBatchSemaphoreCeiling (cfg : ScanConfig) : Nat :=
  cfg.threads

/-- The configuration dict built by the CLI from the validated values
(cli.py lines 267-276). -/
def mkCliConfig (threads timeout retries : Nat) (delay : ℚ) (userAgent : String)
    (followRedirects ignoreSsl verbose : Bool) : ScanConfig :=
  { threads := threads, timeout := timeout, retries := retries, delay := delay,
    userAgent := userAgent, followRedirects := followRedirects,
    ignoreSsl := ignoreSsl, verbose := verbose }

/-- C6: the effective ceiling of the scan's counting semaphore is the
validated thread count, clamped to `[1, 200]`: values above 200 are
capped to 200 and the run proceeds, values below 1 make validation fail
before any scanning, values in range pass through unchanged, and every
value that passes validation lies in `[1, 200]` and becomes the
semaphore ceiling of the batch scan it configures. -/
theorem thread_ceiling_clamped (c : Int) :
    (c > 200 → validateThreads c = .ok 200) ∧
    (c < 1 → validateThreads c = .error "Error: Thread count must be at least 1") ∧
    (1 ≤ c → c ≤ 200 → validateThreads c = .ok c) ∧
    (∀ v, validateThreads c = .ok v → 1 ≤ v ∧ v ≤ 200 ∧
      ∀ timeout retries delay userAgent followRedirects ignoreSsl verbose,
        scanBatchSemaphoreCeiling (mkCliConfig v.toNat timeout retries delay
          userAgent followRedirects ignoreSsl verbose) = v.toNat) := by
  unfold validateThreads
  refine ⟨?_, ?_, ?_, ?_⟩
  · intro h
    rw [if_pos h]
  · intro h
    rw [if_neg (by omega), if_pos h]
  · intro h1 h2
    rw [if_neg (by omega), if_neg (by omega)]
  · intro v hv
    by_cases h1 : c > 200
    · rw [if_pos h1] at hv
      cases hv
      exact ⟨by omega, by omega, fun _ _ _ _ _ _ _ => rfl⟩
    · rw [if_neg h1] at hv
      by_cases h2 : c < 1
      · rw [if_pos h2] at hv
        exact absurd hv (by simp)
      · rw [if_neg h2] at hv
        cases hv
        exact ⟨by omega, by omega, fun _ _ _ _ _ _ _ => rfl⟩

theorem thread_ceiling_clamped_witness :
    validateThreads 500 = .ok 200 :=
  (thread_ceiling_clamped 500).1 (by decide)

/-! ### Input-line normalization and validation (`helpers.py`, `cli.py`) -/

/-- The whitespace characters removed by Python `str.strip()` (ASCII
range, which covers the hostname inputs of this tool). -/
def pyIsSpace (c : Char) : Bool :=
  (c == ' ') || (c == '\t') || (c == '\n') || (c == '\r') ||
    (c == Char.ofNat 11) || (c == Char.ofNat 12)

/-- Python `s.strip()`. -/
def stripChars (s : List Char) : List Char :=
  ((s.dropWhile pyIsSpace).reverse.dropWhile pyIsSpace).reverse

def pyStrip (s : String) : String :=
  ⟨stripChars s.data⟩

/-- Python `s.split(sep)[0]`: the run before the first separator. -/
def pySplitHead (sep : Char) (s : List Char) : List Char :=
  s.takeWhile (fun c => c != sep)

/-- Python `s.split(sep)`, empty pieces preserved
(`"a..b".split('.') == ['a', '', 'b']`). -/
def splitOnChar (sep : Char) : List Char → List (List Char)
  | [] => [[]]
  | c :: cs =>
    match splitOnChar sep cs with
    | [] => [[]]
    | h :: t => if c = sep then [] :: h :: t else (c :: h) :: t

/-- Python `s.rstrip('.')`. -/
def rstripDot (s : List Char) : List Char :=
  (s.reverse.dropWhile (fun c => c == '.')).reverse

/-- Python `c.lower()` for ASCII (hostname characters). -/
def pyLowerChar (c : Char) : Char :=
  if 'A' ≤ c ∧ c ≤ 'Z' then Char.ofNat (c.toNat + 32) else c

/-- `urllib.parse.urlparse(s).netloc or urlparse(s).path` for a string
that starts with `http://` or `https://` (the only inputs
`clean_subdomain` feeds it, helpers.py lines 75-80): the netloc is the
run between `//` and the next `/`, `?` or `#`; when it is empty,
Python's `or` falls back to the path (the run up to the next `?` or
`#`).  `urlparse` raises on none of these inputs, so the surrounding
`except: pass` is dead. -/
def urlparseNetlocOrPath (s : List Char) : List Char :=
  let rest := if charsStartWith s "http://".data then s.drop 7 else s.drop 8
  let netloc := rest.takeWhile (fun c => c != '/' && c != '?' && c != '#')
  if netloc.isEmpty then rest.takeWhile (fun c => c != '?' && c != '#') else netloc

/-- `clean_subdomain` (helpers.py lines 61-95): note that the
`startswith(('http://', 'https://'))` check is case-sensitive, so an
upper-case scheme is not stripped via `urlparse`; the port is split off
only when the string has exactly one colon; lowering is ASCII
(hostnames). -/
def cleanChars (s : List Char) : List Char :=
  if s.isEmpty then []
  else
    let s₁ := if charsStartWith s "http://".data || charsStartWith s "https://".data
      then urlparseNetlocOrPath s else s
    let s₂ := pySplitHead '#' (pySplitHead '?' (pySplitHead '/' s₁))
    let s₃ := if s₂.contains ':' ∧ ¬ (s₂.count ':' > 1) then pySplitHead ':' s₂ else s₂
    let s₄ := stripChars (s₃.map pyLowerChar)
    rstripDot s₄

def clean_subdomain (s : String) : String :=
  ⟨cleanChars s.data⟩

/-- The character class `[a-zA-Z0-9]` of the validation regex. -/
def isAlnumAscii (c : Char) : Bool :=
  (('a' ≤ c ∧ c ≤ 'z') ∨ ('A' ≤ c ∧ c ≤ 'Z') ∨ ('0' ≤ c ∧ c ≤ '9') : Prop)

/-- The character class `[a-zA-Z0-9.-]`. -/
def validCharClass (c : Char) : Bool :=
  isAlnumAscii c || c == '.' || c == '-'

/-- `re.match(r'^[a-zA-Z0-9][a-zA-Z0-9.-]*[a-zA-Z0-9]$', s)` of
helpers.py line 116: at least two characters, alphanumeric at both ends,
letters, digits, dots and hyphens in between. -/
def matchesShapeRegex (s : List Char) : Bool :=
  match s with
  | [] => false
  | c :: cs =>
    match cs.getLast? with
    | none => false
    | some lastc => isAlnumAscii c && cs.dropLast.all validCharClass && isAlnumAscii lastc

/-- The per-label checks of helpers.py lines 124-135: 1-63 characters,
no leading or trailing hyphen, at least one alphanumeric character. -/
def validLabel (lab : List Char) : Bool :=
  match lab.head?, lab.getLast? with
  | some h, some l =>
    decide (lab.length ≤ 63) && !(h == '-') && !(l == '-') && lab.any isAlnumAscii
  | _, _ => false

/-- `is_valid_subdomain` (helpers.py lines 97-141). -/
def is_valid_subdomain (s : String) : Bool :=
  let cs := s.data
  if cs.isEmpty then false
  else if cs.length > 253 then false
  else if !matchesShapeRegex cs then false
  else if !(splitOnChar '.' cs).all validLabel then false
  else if !cs.contains '.' then false
  else true

/-- C9 counterexample: `clean_subdomain("HTTPS://Foo.Example.com:443/path")`
is `"https"`, not `"foo.example.com"`: the scheme check at helpers.py
line 75 is case-sensitive, so the upper-case scheme is never stripped —
the string is cut at the first `/` and then at its single colon, leaving
the lowered scheme name. -/
theorem clean_subdomain_uppercase_scheme_counterexample :
    clean_subdomain "HTTPS://Foo.Example.com:443/path" = "https" ∧
    clean_subdomain "HTTPS://Foo.Example.com:443/path" ≠ "foo.example.com" := by
  constructor
  · rfl
  · decide

/-- C9 (amended): the normalization examples hold for a lower-case
scheme — `clean_subdomain("https://Foo.Example.com:443/path")` is
`"foo.example.com"`, while the upper-case variant yields `"https"` — and
the validation examples hold as stated: `a..b.com` is invalid (its empty
middle label fails), `a-b.com` is valid. -/
theorem normalization_validation_examples :
    clean_subdomain "https://Foo.Example.com:443/path" = "foo.example.com" ∧
    clean_subdomain "HTTPS://Foo.Example.com:443/path" = "https" ∧
    is_valid_subdomain "a..b.com" = false ∧
    is_valid_subdomain "a-b.com" = true := by
  refine ⟨rfl, rfl, ?_, ?_⟩ <;> decide

/-- The per-line processing of `read_subdomains_from_file` (helpers.py
lines 41-54): strip the line; drop it when blank or starting with `#`;
clean it; keep it only when the cleaned value is non-empty and valid
(invalid lines are silently skipped). -/
def fileLineTargets (line : String) : List String :=
  let l := pyStrip line
  if l.data.isEmpty || pyStartsWith l "#" then []
  else
    let s := clean_subdomain l
    if !s.data.isEmpty && is_valid_subdomain s then [s] else []

/-- `read_subdomains_from_file` over the file's lines. -/
def read_subdomains_from_file (lines : List String) : List String :=
  lines.flatMap fileLineTargets

/-- The per-line processing of the stdin branch of `cli.py` `main`
(lines 243-246): strip the line and keep any non-blank, non-comment line
verbatim — no normalization and no validation are applied. -/
def stdinLineTargets (line : String) : List String :=
  let l := pyStrip line
  if !l.data.isEmpty && !pyStartsWith l "#" then [l] else []

/-- The stdin loop of `cli.py` `main` over the input lines. -/
def stdinSubdomains (lines : List String) : List String :=
  lines.flatMap stdinLineTargets

/-- C8 counterexample: the two input sources do not process lines
identically.  The line `Example.COM` is normalized and validated on the
file path, but taken verbatim (unnormalized, unvalidated) on the stdin
path; the invalid line `-bad-` is skipped by the file path but scanned
verbatim from stdin. -/
theorem input_sources_differ_counterexample :
    read_subdomains_from_file ["Example.COM"] = ["example.com"] ∧
    stdinSubdomains ["Example.COM"] = ["Example.COM"] ∧
    stdinSubdomains ["Example.COM"] ≠ read_subdomains_from_file ["Example.COM"] ∧
    read_subdomains_from_file ["-bad-"] = [] ∧
    stdinSubdomains ["-bad-"] = ["-bad-"] := by
  refine ⟨rfl, rfl, ?_, rfl, rfl⟩
  decide

/-- C8 (amended): both sources strip each line and drop blank lines and
lines starting with `#`; but only the file path normalizes the remaining
lines and validates them (silently skipping invalid ones), while the
stdin path keeps every remaining line verbatim, unnormalized and
unvalidated. -/
theorem input_line_processing (line : String) :
    (fileLineTargets line = [] ∨
      (fileLineTargets line = [clean_subdomain (pyStrip line)] ∧
        is_valid_subdomain (clean_subdomain (pyStrip line)) = true)) ∧
    ((pyStrip line).data.isEmpty = true ∨ pyStartsWith (pyStrip line) "#" = true →
      fileLineTargets line = [] ∧ stdinLineTargets line = []) ∧
    ((pyStrip line).data.isEmpty = false → pyStartsWith (pyStrip line) "#" = false →
      stdinLineTargets line = [pyStrip line]) := by
  refine ⟨?_, ?_, ?_⟩
  · unfold fileLineTargets
    by_cases h1 : ((pyStrip line).data.isEmpty || pyStartsWith (pyStrip line) "#") = true
    · rw [if_pos h1]
      left
      rfl
    · rw [if_neg h1]
      dsimp only
      by_cases h2 : (!(clean_subdomain (pyStrip line)).data.isEmpty &&
          is_valid_subdomain (clean_subdomain (pyStrip line))) = true
      · rw [if_pos h2]
        right
        exact ⟨rfl, (Bool.and_eq_true _ _ |>.mp h2).2⟩
      · rw [if_neg h2]
        left
        rfl
  · intro h
    have hor : ((pyStrip line).data.isEmpty || pyStartsWith (pyStrip line) "#") = true := by
      rcases h with h | h <;> rw [h] <;> simp
    constructor
    · unfold fileLineTargets
      rw [if_pos hor]
    · unfold stdinLineTargets
      rw [if_neg ?_]
      rcases h with h | h <;> rw [h] <;> simp
  · intro h1 h2
    unfold stdinLineTargets
    rw [if_pos (by rw [h1, h2]; rfl)]

theorem input_line_processing_witness :
    stdinLineTargets "Example.COM" = [pyStrip "Example.COM"] :=
  (input_line_processing "Example.COM").2.2 rfl rfl

end Subsort
